import Mathlib

/-!
# Verification of the Harmony lexer and parser

A shallow embedding, in Lean 4, of the Harmony language lexer
(`src/docs/harmony/lexer.ts`) and parser (`parser.ts`, with AST types from
`ast.ts`).  Classes with mutable fields become state-passing functions over
explicit state structures; `while` loops become fuel-indexed recursive
functions (fuel exhaustion is reported as `none`, distinct from the parse
failures that the TypeScript code reports as `null`); the JavaScript empty
string sentinel for the current character becomes `Option Char`.
-/

/-- Token categories, mirroring the TypeScript `TokenType` enum. -/
inductive TokenType where
  | LET | VAR | FUNC | CLASS | INIT | SELF | IF | ELIF | ELSE | WHILE | FOR
  | IN | RETURN | TRUE | FALSE | AND | OR | NOT
  | INTEGER | FLOAT | STRING
  | IDENTIFIER
  | PLUS | MINUS | MULTIPLY | DIVIDE | ASSIGN | EQUAL | NOT_EQUAL
  | LESS | GREATER | LESS_EQUAL | GREATER_EQUAL
  | DOT | COMMA | COLON | ARROW
  | LEFT_PAREN | RIGHT_PAREN | LEFT_BRACKET | RIGHT_BRACKET
  | LEFT_BRACE | RIGHT_BRACE
  | NEWLINE | INDENT | DEDENT
  | COMMENT | EOF | ILLEGAL
  deriving DecidableEq, Repr

/-- The string value of each `TokenType` enum member, as used inside the
parser diagnostic messages (template literals print the enum value). -/
def ttName : TokenType → String
  | .LET => "LET" | .VAR => "VAR" | .FUNC => "FUNC" | .CLASS => "CLASS"
  | .INIT => "INIT" | .SELF => "SELF" | .IF => "IF" | .ELIF => "ELIF"
  | .ELSE => "ELSE" | .WHILE => "WHILE" | .FOR => "FOR" | .IN => "IN"
  | .RETURN => "RETURN" | .TRUE => "TRUE" | .FALSE => "FALSE" | .AND => "AND"
  | .OR => "OR" | .NOT => "NOT" | .INTEGER => "INTEGER" | .FLOAT => "FLOAT"
  | .STRING => "STRING" | .IDENTIFIER => "IDENTIFIER" | .PLUS => "PLUS"
  | .MINUS => "MINUS" | .MULTIPLY => "MULTIPLY" | .DIVIDE => "DIVIDE"
  | .ASSIGN => "ASSIGN" | .EQUAL => "EQUAL" | .NOT_EQUAL => "NOT_EQUAL"
  | .LESS => "LESS" | .GREATER => "GREATER" | .LESS_EQUAL => "LESS_EQUAL"
  | .GREATER_EQUAL => "GREATER_EQUAL" | .DOT => "DOT" | .COMMA => "COMMA"
  | .COLON => "COLON" | .ARROW => "ARROW" | .LEFT_PAREN => "LEFT_PAREN"
  | .RIGHT_PAREN => "RIGHT_PAREN" | .LEFT_BRACKET => "LEFT_BRACKET"
  | .RIGHT_BRACKET => "RIGHT_BRACKET" | .LEFT_BRACE => "LEFT_BRACE"
  | .RIGHT_BRACE => "RIGHT_BRACE" | .NEWLINE => "NEWLINE"
  | .INDENT => "INDENT" | .DEDENT => "DEDENT" | .COMMENT => "COMMENT"
  | .EOF => "EOF" | .ILLEGAL => "ILLEGAL"

/-- A token: type tag, literal text, and 1-based source position. -/
structure Token where
  type : TokenType
  literal : List Char
  line : Nat
  column : Nat
  deriving DecidableEq, Repr

/-- Lexer state: the mutable fields of the TypeScript `Lexer` class.
`ch = none` models the empty-string sentinel used at end of input.
The indentation stack keeps its top at the head of the list (the TypeScript
array keeps the top at the end), so the base entry `0` is the last element. -/
structure LexerState where
  input : List Char
  position : Nat
  readPosition : Nat
  ch : Option Char
  line : Nat
  column : Nat
  indentStack : List Nat
  pendingTokens : List Token
  deriving DecidableEq, Repr

/-- `Lexer.readChar`. -/
def readChar (st : LexerState) : LexerState :=
  { st with
    ch := st.input.get? st.readPosition
    position := st.readPosition
    readPosition := st.readPosition + 1
    column := st.column + 1 }

/-- `Lexer.peekChar`. -/
def peekChar (st : LexerState) : Option Char :=
  st.input.get? st.readPosition

/-- `Lexer.isAtEnd`. -/
def isAtEnd (st : LexerState) : Bool :=
  decide (st.input.length ≤ st.position)

/-- The `Lexer` constructor: initialize the fields, then read the first
character. -/
def mkLexer (input : List Char) : LexerState :=
  readChar
    { input := input, position := 0, readPosition := 0, ch := none,
      line := 1, column := 0, indentStack := [0], pendingTokens := [] }

/-- `Lexer.isLetter` on the current-character option (`/[a-zA-Z_]/` matches
nothing when the character is the empty-string sentinel). -/
def isLetter : Option Char → Bool
  | some c => (decide ('a' ≤ c) && decide (c ≤ 'z')) ||
      (decide ('A' ≤ c) && decide (c ≤ 'Z')) || c = '_'
  | none => false

/-- `Lexer.isDigit` on the current-character option. -/
def isDigit : Option Char → Bool
  | some c => decide ('0' ≤ c) && decide (c ≤ '9')
  | none => false

/-- `Lexer.lookupIdentifier`: keyword table lookup, defaulting to
`IDENTIFIER`. -/
def lookupIdentifier (s : List Char) : TokenType :=
  match String.mk s with
  | "let" => .LET | "var" => .VAR | "func" => .FUNC | "class" => .CLASS
  | "init" => .INIT | "self" => .SELF | "if" => .IF | "elif" => .ELIF
  | "else" => .ELSE | "while" => .WHILE | "for" => .FOR | "in" => .IN
  | "return" => .RETURN | "true" => .TRUE | "false" => .FALSE
  | "and" => .AND | "or" => .OR | "not" => .NOT
  | _ => .IDENTIFIER

/-- The dedent-unwinding loop inside `Lexer.skipWhitespace` (lexer.ts lines
335-344): while the new indent is less than the stack top, pop and enqueue
one `DEDENT`; if after a pop the new indent is strictly greater than the new
top, enqueue an `ILLEGAL` token and stop.  The empty-`rest` branch mirrors
the JavaScript comparisons against `undefined`, which are both false, so the
loop exits after the pop.  Returns the new stack and the enqueued tokens. -/
def processDedents (indent line : Nat) : List Nat → List Nat × List Token
  | [] => ([], [])
  | top :: rest =>
    if indent < top then
      let dedentTok : Token := ⟨.DEDENT, [], line, 0⟩
      match rest with
      | [] => ([], [dedentTok])
      | next :: rest2 =>
        if next < indent then
          (next :: rest2, [dedentTok, ⟨.ILLEGAL, "Invalid indentation".toList, line, 0⟩])
        else
          let (s, ts) := processDedents indent line (next :: rest2)
          (s, dedentTok :: ts)
    else (top :: rest, [])

/-- The indentation-counting loop of `Lexer.skipWhitespace`: consume spaces
(1 column each) and tabs (4 columns each) at the start of a line. -/
def countIndent (fuel : Nat) (st : LexerState) (acc : Nat) : LexerState × Nat :=
  match fuel with
  | 0 => (st, acc)
  | fuel + 1 =>
    match st.ch with
    | some ' ' => countIndent fuel (readChar st) (acc + 1)
    | some '\t' => countIndent fuel (readChar st) (acc + 4)
    | _ => (st, acc)

/-- The regular-whitespace loop of `Lexer.skipWhitespace`: skip spaces, tabs
and carriage returns (not line feeds). -/
def skipSpaces (fuel : Nat) (st : LexerState) : LexerState :=
  match fuel with
  | 0 => st
  | fuel + 1 =>
    if st.ch = some ' ' ∨ st.ch = some '\t' ∨ st.ch = some '\r' then
      skipSpaces fuel (readChar st)
    else st

/-- `Lexer.skipWhitespace`: indentation bookkeeping at column 1, then inline
whitespace, then a line feed enqueues a `NEWLINE` token (whose literal is
the two characters backslash and n, as in the source) and resets the
line/column counters. -/
def skipWhitespace (fuel : Nat) (st : LexerState) : LexerState :=
  let st1 :=
    if st.column = 1 then
      let (st', indent) := countIndent fuel st 0
      if st'.ch ≠ some '\n' ∧ st'.ch ≠ some '\r' ∧ st'.ch ≠ some '#' ∧ st'.ch ≠ none then
        let currentIndent := st'.indentStack.headD 0
        if currentIndent < indent then
          { st' with indentStack := indent :: st'.indentStack,
                     pendingTokens := st'.pendingTokens ++ [⟨.INDENT, [], st'.line, 0⟩] }
        else if indent < currentIndent then
          let (stack', toks) := processDedents indent st'.line st'.indentStack
          { st' with indentStack := stack', pendingTokens := st'.pendingTokens ++ toks }
        else st'
      else st'
    else st
  let st2 := skipSpaces fuel st1
  if st2.ch = some '\n' then
    let st3 := { st2 with
      pendingTokens := st2.pendingTokens ++ [⟨.NEWLINE, ['\\', 'n'], st2.line, st2.column⟩],
      line := st2.line + 1, column := 0 }
    readChar st3
  else st2

/-- The character loop of `Lexer.readIdentifier`. -/
def readIdentLoop (fuel : Nat) (startPos : Nat) (st : LexerState) : LexerState :=
  match fuel with
  | 0 => st
  | fuel + 1 =>
    if isLetter st.ch || (decide (startPos < st.position) && isDigit st.ch) then
      readIdentLoop fuel startPos (readChar st)
    else st

/-- `Lexer.readIdentifier`: consume the identifier and return the consumed
slice of the input. -/
def readIdentifier (fuel : Nat) (st : LexerState) : List Char × LexerState :=
  let st' := readIdentLoop fuel st.position st
  ((st.input.drop st.position).take (st'.position - st.position), st')

/-- The digit loop of `Lexer.readNumber`. -/
def readDigits (fuel : Nat) (st : LexerState) : LexerState :=
  match fuel with
  | 0 => st
  | fuel + 1 => if isDigit st.ch then readDigits fuel (readChar st) else st

/-- `Lexer.readNumber`: digits, then optionally a decimal point followed by
at least one digit (a trailing dot is never consumed). -/
def readNumber (fuel : Nat) (st : LexerState) : Token × LexerState :=
  let startPosition := st.position
  let startColumn := st.column
  let st1 := readDigits fuel st
  let (isFloat, st2) :=
    if st1.ch = some '.' ∧ isDigit (peekChar st1) then
      (true, readDigits fuel (readChar st1))
    else (false, st1)
  let number := (st2.input.drop startPosition).take (st2.position - startPosition)
  if isFloat then (⟨.FLOAT, number, st2.line, startColumn⟩, st2)
  else (⟨.INTEGER, number, st2.line, startColumn⟩, st2)

/-- The scanning loop of `Lexer.readString`, with the escape flag and the
line/column updates for embedded newlines. -/
def readStringLoop (fuel : Nat) (escaped : Bool) (st : LexerState) : LexerState :=
  match fuel with
  | 0 => st
  | fuel + 1 =>
    if (st.ch ≠ some '"' ∨ escaped) ∧ ¬ isAtEnd st then
      let escaped' := st.ch = some '\\' ∧ ¬ escaped
      let st' := if st.ch = some '\n' then { st with line := st.line + 1, column := 0 } else st
      readStringLoop fuel escaped' (readChar st')
    else st

/-- `Lexer.readString`: double-quoted string literal; unterminated strings
yield an `ILLEGAL` token. -/
def readString (fuel : Nat) (st : LexerState) : Token × LexerState :=
  let startPosition := st.position + 1
  let startColumn := st.column
  let st1 := readStringLoop fuel false (readChar st)
  if st1.ch ≠ some '"' then
    (⟨.ILLEGAL, "Unterminated string".toList, st1.line, startColumn⟩, st1)
  else
    let str := (st1.input.drop startPosition).take (st1.position - startPosition)
    (⟨.STRING, str, st1.line, startColumn⟩, st1)

/-- The scanning loop of `Lexer.readComment`. -/
def readCommentLoop (fuel : Nat) (st : LexerState) : LexerState :=
  match fuel with
  | 0 => st
  | fuel + 1 =>
    if st.ch ≠ some '\n' ∧ st.ch ≠ none then readCommentLoop fuel (readChar st)
    else st

/-- `Lexer.readComment`: from `#` to end of line, retained as a token. -/
def readComment (fuel : Nat) (st : LexerState) : Token × LexerState :=
  let startPosition := st.position
  let startColumn := st.column
  let st1 := readCommentLoop fuel st
  let comment := (st1.input.drop startPosition).take (st1.position - startPosition)
  (⟨.COMMENT, comment, st1.line, startColumn⟩, st1)

/-- Emit a single-character token and advance (the fall-through
`this.readChar(); return token` at the end of `Lexer.nextToken`). -/
def singleChar (tt : TokenType) (c : Char) (st : LexerState) : Token × LexerState :=
  (⟨tt, [c], st.line, st.column⟩, readChar st)

/-- Emit a two-character token: read the second character, build the
two-character literal with column pointing at the first character, then
advance past the second. -/
def twoChar (tt : TokenType) (c1 c2 : Char) (st : LexerState) : Token × LexerState :=
  let st1 := readChar st
  (⟨tt, [c1, c2], st1.line, st1.column - 1⟩, readChar st1)

/-- `Lexer.nextToken`: drain pending tokens first, run whitespace and
indentation bookkeeping, flush dedents plus `EOF` when the input is
exhausted with a non-trivial indent stack, then scan one token. -/
def lexNextToken (fuel : Nat) (st : LexerState) : Token × LexerState :=
  match st.pendingTokens with
  | t :: rest => (t, { st with pendingTokens := rest })
  | [] =>
    let st := skipWhitespace fuel st
    match st.pendingTokens with
    | t :: rest => (t, { st with pendingTokens := rest })
    | [] =>
      if st.ch = none ∧ 1 < st.indentStack.length then
        let dedents := List.replicate (st.indentStack.length - 1)
          (Token.mk .DEDENT [] st.line st.column)
        match dedents ++ [Token.mk .EOF [] st.line st.column] with
        | t :: rest =>
          (t, { st with indentStack := st.indentStack.drop (st.indentStack.length - 1),
                        pendingTokens := rest })
        | [] => (⟨.EOF, [], st.line, st.column⟩, st)
      else
        match st.ch with
        | none => (⟨.EOF, [], st.line, st.column⟩, readChar st)
        | some '=' =>
          if peekChar st = some '=' then twoChar .EQUAL '=' '=' st
          else singleChar .ASSIGN '=' st
        | some '+' => singleChar .PLUS '+' st
        | some '-' =>
          if peekChar st = some '>' then twoChar .ARROW '-' '>' st
          else singleChar .MINUS '-' st
        | some '*' => singleChar .MULTIPLY '*' st
        | some '/' => singleChar .DIVIDE '/' st
        | some '!' =>
          if peekChar st = some '=' then twoChar .NOT_EQUAL '!' '=' st
          else singleChar .ILLEGAL '!' st
        | some '<' =>
          if peekChar st = some '=' then twoChar .LESS_EQUAL '<' '=' st
          else singleChar .LESS '<' st
        | some '>' =>
          if peekChar st = some '=' then twoChar .GREATER_EQUAL '>' '=' st
          else singleChar .GREATER '>' st
        | some '.' => singleChar .DOT '.' st
        | some ',' => singleChar .COMMA ',' st
        | some ':' => singleChar .COLON ':' st
        | some '(' => singleChar .LEFT_PAREN '(' st
        | some ')' => singleChar .RIGHT_PAREN ')' st
        | some '[' => singleChar .LEFT_BRACKET '[' st
        | some ']' => singleChar .RIGHT_BRACKET ']' st
        | some '\x7b' => singleChar .LEFT_BRACE '\x7b' st
        | some '\x7d' => singleChar .RIGHT_BRACE '\x7d' st
        | some '#' =>
          let (tok, st') := readComment fuel st
          (tok, readChar st')
        | some '"' =>
          let (tok, st') := readString fuel st
          (tok, readChar st')
        | some c =>
          if isLetter (some c) then
            let (ident, st') := readIdentifier fuel st
            (⟨lookupIdentifier ident, ident, st'.line, st'.column - ident.length⟩, st')
          else if isDigit (some c) then
            readNumber fuel st
          else
            singleChar .ILLEGAL c st

/-- `Lexer.nextToken` with enough fuel for every internal character loop
(each loop consumes at least one input character per step). -/
def lexNext (st : LexerState) : Token × LexerState :=
  lexNextToken (st.input.length + 2) st

/-- The collecting loop of `Lexer.tokenize`: while not at end of input,
fetch the next token and append it, stopping after appending an `EOF`. -/
def tokenizeLoop (fuel : Nat) (st : LexerState) (acc : List Token) : List Token :=
  match fuel with
  | 0 => acc
  | fuel + 1 =>
    if isAtEnd st then acc
    else
      let (tok, st') := lexNext st
      if tok.type = .EOF then acc ++ [tok]
      else tokenizeLoop fuel st' (acc ++ [tok])

/-- `Lexer.tokenize` on a source string. -/
def harmonyTokenize (s : String) : List Token :=
  let st := mkLexer s.toList
  tokenizeLoop (4 * st.input.length + 16) st []

/-! ## AST (ast.ts)

The TypeScript discriminated unions become inductive types.  Every node
keeps its representative `token` field.  `DictItem` nodes are modelled as a
triple of representative token, key and value. -/

/-- An `Identifier` AST node. -/
structure Ident where
  token : Token
  name : List Char
  deriving DecidableEq, Repr

/-- A `TypeAnnotation` AST node (the token is the type identifier token). -/
structure TypeAnn where
  token : Token
  typeName : Ident
  deriving DecidableEq, Repr

/-- Expression nodes.  `floatLiteral` keeps the raw literal characters (the
TypeScript stores the `parseFloat` of those characters). -/
inductive Expr where
  | identifier (id : Ident)
  | integerLiteral (token : Token) (value : Int)
  | floatLiteral (token : Token) (value : List Char)
  | stringLiteral (token : Token) (value : List Char)
  | booleanLiteral (token : Token) (value : Bool)
  | listLiteral (token : Token) (elements : List Expr)
  | dictLiteral (token : Token) (items : List (Token × Expr × Expr))
  | binaryExpression (token : Token) (left : Expr) (operator : List Char) (right : Expr)
  | unaryExpression (token : Token) (operator : List Char) (operand : Expr)
  | functionCall (token : Token) (function : Expr) (arguments : List Expr)
  | memberAccess (token : Token) (object : Expr) (property : Ident)
  | subscriptAccess (token : Token) (object : Expr) (index : Expr)
  | instanceCreation (token : Token) (className : Ident) (arguments : List Expr)
  | selfExpression (token : Token)
  deriving Repr

/-- The representative `token` field of an expression node. -/
def Expr.tokenOf : Expr → Token
  | .identifier id => id.token
  | .integerLiteral t _ => t
  | .floatLiteral t _ => t
  | .stringLiteral t _ => t
  | .booleanLiteral t _ => t
  | .listLiteral t _ => t
  | .dictLiteral t _ => t
  | .binaryExpression t _ _ _ => t
  | .unaryExpression t _ _ => t
  | .functionCall t _ _ => t
  | .memberAccess t _ _ => t
  | .subscriptAccess t _ _ => t
  | .instanceCreation t _ _ => t
  | .selfExpression t => t

/-- A `Parameter` AST node. -/
structure Param where
  token : Token
  identifier : Ident
  typeAnn : Option TypeAnn
  defaultValue : Option Expr
  deriving Repr

/-- Statement nodes.  `loopVar` is the `variable` field of `ForStatement`
(`variable` is reserved in Lean).  `variableDeclaration.initializer` is an
option because the member-variable path leaves it absent. -/
inductive Stmt where
  | variableDeclaration (token : Token) (isConstant : Bool) (identifier : Ident)
      (typeAnn : Option TypeAnn) (initializer : Option Expr)
  | functionDeclaration (token : Token) (name : Ident) (parameters : List Param)
      (returnType : Option TypeAnn) (body : Stmt) (isMethod : Bool) (isInitializer : Bool)
  | classDeclaration (token : Token) (name : Ident) (members : List Stmt)
  | ifStatement (token : Token) (condition : Expr) (consequence : Stmt)
      (alternatives : List (Expr × Stmt)) (alternative : Option Stmt)
  | whileStatement (token : Token) (condition : Expr) (body : Stmt)
  | forStatement (token : Token) (loopVar : Ident) (iterable : Expr) (body : Stmt)
  | returnStatement (token : Token) (returnValue : Option Expr)
  | expressionStatement (token : Token) (expression : Expr)
  | blockStatement (token : Token) (statements : List Stmt)
  deriving Repr

/-- The `Program` AST node. -/
structure Program where
  token : Token
  statements : List Stmt
  deriving Repr

/-! ## Parser state (parser.ts)

The mutable fields of the `Parser` class.  Parse functions return
`Option (Option α × PState)`: the outer `none` is fuel exhaustion (the
TypeScript has unbounded loops), the inner `none` is the `null` that the
TypeScript returns on a parse failure.  Diagnostic messages follow the
source text except that quote characters are omitted. -/

structure PState where
  lex : LexerState
  currentToken : Token
  peekToken : Token
  errors : List String
  isInClass : Bool
  deriving Repr

/-- Append one diagnostic (`this.errors.push(msg)`). -/
def pushError (st : PState) (msg : String) : PState :=
  { st with errors := st.errors ++ [msg] }

/-- The comment-skipping loop inside `Parser.nextToken`: re-fetch while the
new peek token is a comment. -/
def skipCommentsLoop (fuel : Nat) (lex : LexerState) (tok : Token) : Token × LexerState :=
  match fuel with
  | 0 => (tok, lex)
  | fuel + 1 =>
    if tok.type = .COMMENT then
      let (t, lex') := lexNext lex
      skipCommentsLoop fuel lex' t
    else (tok, lex)

/-- `Parser.nextToken`: current becomes peek, peek becomes the next
non-comment token from the lexer. -/
def pNextToken (st : PState) : PState :=
  let (t, lex1) := lexNext st.lex
  let (t2, lex2) := skipCommentsLoop (st.lex.input.length + 2) lex1 t
  { st with currentToken := st.peekToken, peekToken := t2, lex := lex2 }

/-- The `Parser` constructor: read two tokens, then call `nextToken` once
(so `currentToken` becomes the second lexer token), plus the comment edge
case. -/
def mkParser (lex : LexerState) : PState :=
  let (t1, lex1) := lexNext lex
  let (t2, lex2) := lexNext lex1
  let st0 : PState :=
    { lex := lex2, currentToken := t1, peekToken := t2, errors := [], isInClass := false }
  let st1 := pNextToken st0
  if st1.currentToken.type = .EOF ∧ st1.peekToken.type ≠ .EOF then pNextToken st1 else st1

/-- `Parser.peekError`. -/
def peekError (tt : TokenType) (st : PState) : PState :=
  pushError st ("Expected next token to be " ++ ttName tt ++ ", got " ++
    ttName st.peekToken.type ++ " instead (line " ++ toString st.peekToken.line ++
    ", col " ++ toString st.peekToken.column ++ ")")

/-- `Parser.expectPeek`: consume the peek token when it matches, record a
diagnostic otherwise. -/
def expectPeek (tt : TokenType) (st : PState) : Bool × PState :=
  if st.peekToken.type = tt then (true, pNextToken st) else (false, peekError tt st)

/-- The `precedences` map (absent token types give `LOWEST = 0`).
Numerically: ASSIGN 1, OR 2, AND 3, EQUALS 4, LESSGREATER 5, SUM 6,
PRODUCT 7, PREFIX 8, CALL 9, INDEX 10, MEMBER 11. -/
def precedenceOf : TokenType → Nat
  | .ASSIGN => 1 | .OR => 2 | .AND => 3
  | .EQUAL => 4 | .NOT_EQUAL => 4
  | .LESS => 5 | .GREATER => 5 | .LESS_EQUAL => 5 | .GREATER_EQUAL => 5
  | .PLUS => 6 | .MINUS => 6
  | .MULTIPLY => 7 | .DIVIDE => 7
  | .LEFT_PAREN => 9 | .LEFT_BRACKET => 10 | .DOT => 11
  | _ => 0

/-- JavaScript `parseInt(s, 10)` restricted to the literals this lexer can
produce: the leading digit run gives the value, `none` models `NaN` (no
leading digit). -/
def jsParseInt (s : List Char) : Option Int :=
  let digits := s.takeWhile fun c => decide ('0' ≤ c) && decide (c ≤ '9')
  if digits.isEmpty then none
  else some (Int.ofNat (digits.foldl (fun a c => 10 * a + (c.toNat - '0'.toNat)) 0))

/-- `Parser.parseIntegerLiteral`. -/
def parseIntegerLiteral (st : PState) : Option Expr × PState :=
  let token := st.currentToken
  match jsParseInt token.literal with
  | none => (none, pushError st ("Could not parse integer literal: " ++
      String.mk token.literal ++ " (line " ++ toString token.line ++ ")"))
  | some v => (some (.integerLiteral token v), st)

/-- `Parser.parseFloatLiteral` (`parseFloat` is `NaN` only when the literal
has no leading digit; the node keeps the raw characters). -/
def parseFloatLiteral (st : PState) : Option Expr × PState :=
  let token := st.currentToken
  if isDigit token.literal.head? then (some (.floatLiteral token token.literal), st)
  else (none, pushError st ("Could not parse float literal: " ++
      String.mk token.literal ++ " (line " ++ toString token.line ++ ")"))

/-- `Parser.parseStringLiteral`. -/
def parseStringLiteral (st : PState) : Option Expr × PState :=
  (some (.stringLiteral st.currentToken st.currentToken.literal), st)

/-- `Parser.parseBooleanLiteral`. -/
def parseBooleanLiteral (st : PState) : Option Expr × PState :=
  (some (.booleanLiteral st.currentToken (st.currentToken.type = .TRUE)), st)

/-- The diagnostic recorded when `self` appears outside a class context. -/
def selfOutsideMsg (line : Nat) : String :=
  "self keyword used outside of a class method or initializer (line " ++
    toString line ++ ")"

/-- `Parser.parseSelfExpression`: record a diagnostic when not inside a
class, but still produce the node. -/
def parseSelfExpression (st : PState) : Option Expr × PState :=
  let st' := if st.isInClass then st else pushError st (selfOutsideMsg st.currentToken.line)
  (some (.selfExpression st'.currentToken), st')

/-- `Parser.parseMemberAccess` (called with `currentToken` on the dot). -/
def parseMemberAccess (objectExp : Expr) (st : PState) : Option Expr × PState :=
  let dotToken := st.currentToken
  let (ok, st1) := expectPeek .IDENTIFIER st
  if ¬ ok then
    (none, pushError st1 ("Expected identifier for member name after ., got " ++
      ttName st1.peekToken.type))
  else
    (some (.memberAccess dotToken objectExp ⟨st1.currentToken, st1.currentToken.literal⟩), st1)

/-! ## Expression parsing (the Pratt cluster)

The mutually recursive expression parse functions.  Fuel is the first
argument of each; every recursive call inside the cluster decrements it. -/

mutual

/-- `Parser.parseExpression`: dispatch on the current token through the
prefix-parse-function table, then fold infix operators via `pExprLoop`. -/
def parseExpression (fuel : Nat) (prec : Nat) (st : PState) :
    Option (Option Expr × PState) :=
  match fuel with
  | 0 => none
  | fuel + 1 =>
    let pre : Option (Option Expr × PState) :=
      match st.currentToken.type with
      | .IDENTIFIER => parseIdentifierOrInstanceCreation fuel st
      | .INTEGER => some (parseIntegerLiteral st)
      | .FLOAT => some (parseFloatLiteral st)
      | .STRING => some (parseStringLiteral st)
      | .TRUE => some (parseBooleanLiteral st)
      | .FALSE => some (parseBooleanLiteral st)
      | .LEFT_PAREN => parseGroupedExpression fuel st
      | .LEFT_BRACKET => parseListLiteral fuel st
      | .LEFT_BRACE => parseDictLiteral fuel st
      | .NOT => parsePrefixExpression fuel st
      | .MINUS => parsePrefixExpression fuel st
      | .SELF => some (parseSelfExpression st)
      | t => some (none, pushError st ("No prefix parse function found for " ++
          ttName t ++ " (line " ++ toString st.currentToken.line ++ ")"))
    match pre with
    | none => none
    | some (none, st') => some (none, st')
    | some (some leftExp, st') => pExprLoop fuel prec leftExp st'

/-- The `while` loop of `Parser.parseExpression`: while the peek token is
not `NEWLINE`/`EOF` and binds tighter than `prec`, consume it as an infix
operator (returning the left side unchanged when no infix parse function is
registered for it). -/
def pExprLoop (fuel : Nat) (prec : Nat) (leftExp : Expr) (st : PState) :
    Option (Option Expr × PState) :=
  match fuel with
  | 0 => none
  | fuel + 1 =>
    if st.peekToken.type = .NEWLINE ∨ st.peekToken.type = .EOF ∨
        ¬ prec < precedenceOf st.peekToken.type then
      some (some leftExp, st)
    else
      match (match st.peekToken.type with
             | .PLUS | .MINUS | .MULTIPLY | .DIVIDE | .EQUAL | .NOT_EQUAL
             | .LESS | .GREATER | .LESS_EQUAL | .GREATER_EQUAL | .AND | .OR =>
               some (parseInfixExpression fuel leftExp (pNextToken st))
             | .LEFT_PAREN => some (parseFunctionCall fuel leftExp (pNextToken st))
             | .LEFT_BRACKET => some (parseSubscriptAccess fuel leftExp (pNextToken st))
             | .DOT => some (some (parseMemberAccess leftExp (pNextToken st)))
             | _ => none) with
      | none => some (some leftExp, st)
      | some none => none
      | some (some (none, st')) => some (none, st')
      | some (some (some e, st')) => pExprLoop fuel prec e st'

/-- `Parser.parseIdentifierOrInstanceCreation`: an identifier; when followed
by `(` and starting with an uppercase letter, parse the call and repackage
it as an `InstanceCreation` node. -/
def parseIdentifierOrInstanceCreation (fuel : Nat) (st : PState) :
    Option (Option Expr × PState) :=
  match fuel with
  | 0 => none
  | fuel + 1 =>
    let identToken := st.currentToken
    let identifier : Ident := ⟨identToken, identToken.literal⟩
    let upper : Bool := match identToken.literal with
      | c :: _ => decide ('A' ≤ c) && decide (c ≤ 'Z')
      | [] => false
    if st.peekToken.type = .LEFT_PAREN ∧ upper then
      match parseFunctionCall fuel (.identifier identifier) (pNextToken st) with
      | none => none
      | some (none, st') => some (none, st')
      | some (some (.functionCall _ _ args), st') =>
        some (some (.instanceCreation identToken identifier args), st')
      | some (some _, st') =>
        some (none, pushError st'
          "Internal parser error: Expected FunctionCall result when parsing instance creation.")
    else some (some (.identifier identifier), st)

/-- `Parser.parsePrefixExpression` (`not` and unary minus). -/
def parsePrefixExpression (fuel : Nat) (st : PState) : Option (Option Expr × PState) :=
  match fuel with
  | 0 => none
  | fuel + 1 =>
    let operatorToken := st.currentToken
    let st1 := pNextToken st
    match parseExpression fuel 8 st1 with
    | none => none
    | some (none, st2) => some (none, pushError st2
        ("Expected expression after prefix operator " ++ String.mk operatorToken.literal ++
          " (line " ++ toString operatorToken.line ++ ")"))
    | some (some operand, st2) =>
      some (some (.unaryExpression operatorToken operatorToken.literal operand), st2)

/-- `Parser.parseGroupedExpression`: `(` expression `)`, returning the inner
expression itself. -/
def parseGroupedExpression (fuel : Nat) (st : PState) : Option (Option Expr × PState) :=
  match fuel with
  | 0 => none
  | fuel + 1 =>
    let st1 := pNextToken st
    match parseExpression fuel 0 st1 with
    | none => none
    | some (none, st2) => some (none, st2)
    | some (some e, st2) =>
      let (ok, st3) := expectPeek .RIGHT_PAREN st2
      if ok then some (some e, st3) else some (none, st3)

/-- `Parser.parseListLiteral`. -/
def parseListLiteral (fuel : Nat) (st : PState) : Option (Option Expr × PState) :=
  match fuel with
  | 0 => none
  | fuel + 1 =>
    let listToken := st.currentToken
    match parseExpressionList fuel .RIGHT_BRACKET .LEFT_BRACKET st with
    | none => none
    | some (none, st') => some (none, st')
    | some (some elems, st') => some (some (.listLiteral listToken elems), st')

/-- `Parser.parseDictLiteral`. -/
def parseDictLiteral (fuel : Nat) (st : PState) : Option (Option Expr × PState) :=
  match fuel with
  | 0 => none
  | fuel + 1 =>
    let dictToken := st.currentToken
    let st1 := pNextToken st
    if st1.currentToken.type = .RIGHT_BRACE then
      some (some (.dictLiteral dictToken []), st1)
    else
      match parseDictItem fuel st1 with
      | none => none
      | some (none, st2) => some (none, st2)
      | some (some item, st2) => parseDictLoop fuel dictToken [item] st2

/-- The comma loop of `Parser.parseDictLiteral`, including the
trailing-comma case and the final `RIGHT_BRACE` check. -/
def parseDictLoop (fuel : Nat) (dictToken : Token)
    (items : List (Token × Expr × Expr)) (st : PState) : Option (Option Expr × PState) :=
  match fuel with
  | 0 => none
  | fuel + 1 =>
    if st.peekToken.type = .COMMA then
      let st1 := pNextToken st
      if st1.peekToken.type = .RIGHT_BRACE then
        let st2 := pNextToken st1
        if st2.currentToken.type = .RIGHT_BRACE then
          some (some (.dictLiteral dictToken items), st2)
        else
          some (none, pushError st2 ("Expected \x7d or , to continue dictionary literal, got " ++
            ttName st2.currentToken.type))
      else
        let st2 := pNextToken st1
        match parseDictItem fuel st2 with
        | none => none
        | some (none, st3) => some (none, st3)
        | some (some item, st3) => parseDictLoop fuel dictToken (items ++ [item]) st3
    else
      if st.currentToken.type = .RIGHT_BRACE then
        some (some (.dictLiteral dictToken items), st)
      else
        some (none, pushError st ("Expected \x7d or , to continue dictionary literal, got " ++
          ttName st.currentToken.type))

/-- `Parser.parseDictItem`: key `:` value; the item keeps the key
expression token. -/
def parseDictItem (fuel : Nat) (st : PState) :
    Option (Option (Token × Expr × Expr) × PState) :=
  match fuel with
  | 0 => none
  | fuel + 1 =>
    match parseExpression fuel 0 st with
    | none => none
    | some (none, st1) => some (none, pushError st1
        ("Expected dictionary key expression, got " ++ ttName st1.currentToken.type))
    | some (some key, st1) =>
      let (ok, st2) := expectPeek .COLON st1
      if ¬ ok then
        some (none, pushError st2 ("Expected : after dictionary key, got " ++
          ttName st2.peekToken.type))
      else
        let st3 := pNextToken st2
        match parseExpression fuel 0 st3 with
        | none => none
        | some (none, st4) => some (none, pushError st4
            ("Expected dictionary value expression, got " ++ ttName st4.currentToken.type))
        | some (some value, st4) => some (some (key.tokenOf, key, value), st4)

/-- `Parser.parseInfixExpression` (called with `currentToken` on the
operator). -/
def parseInfixExpression (fuel : Nat) (left : Expr) (st : PState) :
    Option (Option Expr × PState) :=
  match fuel with
  | 0 => none
  | fuel + 1 =>
    let operatorToken := st.currentToken
    let prec := precedenceOf st.currentToken.type
    let st1 := pNextToken st
    match parseExpression fuel prec st1 with
    | none => none
    | some (none, st2) => some (none, pushError st2
        ("Expected expression after infix operator " ++ String.mk operatorToken.literal ++
          " (line " ++ toString operatorToken.line ++ ")"))
    | some (some right, st2) =>
      some (some (.binaryExpression operatorToken left operatorToken.literal right), st2)

/-- `Parser.parseExpressionList`: comma-separated expressions after the
start delimiter, consuming the end delimiter (with trailing-comma support
in `parseExprListLoop`). -/
def parseExpressionList (fuel : Nat) (endToken startToken : TokenType) (st : PState) :
    Option (Option (List Expr) × PState) :=
  match fuel with
  | 0 => none
  | fuel + 1 =>
    if st.peekToken.type = endToken then
      some (some [], pNextToken st)
    else
      let st1 := pNextToken st
      match parseExpression fuel 0 st1 with
      | none => none
      | some (none, st2) => some (none, pushError st2
          ("Expected expression after " ++ ttName startToken ++ " in list, got " ++
            ttName st2.currentToken.type))
      | some (some e, st2) => parseExprListLoop fuel endToken [e] st2

/-- The comma loop of `Parser.parseExpressionList`: a comma followed by the
end delimiter (a trailing comma) ends the list without adding an element
and without a diagnostic. -/
def parseExprListLoop (fuel : Nat) (endToken : TokenType) (list : List Expr)
    (st : PState) : Option (Option (List Expr) × PState) :=
  match fuel with
  | 0 => none
  | fuel + 1 =>
    if st.peekToken.type = .COMMA then
      let st1 := pNextToken st
      if st1.peekToken.type = endToken then
        some (some list, pNextToken st1)
      else
        let st2 := pNextToken st1
        match parseExpression fuel 0 st2 with
        | none => none
        | some (none, st3) => some (none, pushError st3
            ("Expected expression after , in list, got " ++ ttName st3.currentToken.type))
        | some (some e, st3) => parseExprListLoop fuel endToken (list ++ [e]) st3
    else
      if st.currentToken.type = endToken then some (some list, st)
      else
        let (ok, st1) := expectPeek endToken st
        if ok then some (some list, st1)
        else
          some (none, pushError st1 ("Expected , or " ++ ttName endToken ++
            " in expression list, got " ++ ttName st1.peekToken.type))

/-- `Parser.parseFunctionCall` (called with `currentToken` on `(`). -/
def parseFunctionCall (fuel : Nat) (funcExp : Expr) (st : PState) :
    Option (Option Expr × PState) :=
  match fuel with
  | 0 => none
  | fuel + 1 =>
    let callToken := st.currentToken
    match parseExpressionList fuel .RIGHT_PAREN .LEFT_PAREN st with
    | none => none
    | some (none, st') => some (none, st')
    | some (some args, st') => some (some (.functionCall callToken funcExp args), st')

/-- `Parser.parseSubscriptAccess` (called with `currentToken` on `[`). -/
def parseSubscriptAccess (fuel : Nat) (objectExp : Expr) (st : PState) :
    Option (Option Expr × PState) :=
  match fuel with
  | 0 => none
  | fuel + 1 =>
    let indexToken := st.currentToken
    let st1 := pNextToken st
    match parseExpression fuel 0 st1 with
    | none => none
    | some (none, st2) => some (none, pushError st2
        ("Expected index expression inside [ ], got " ++ ttName st2.currentToken.type))
    | some (some idx, st2) =>
      let (ok, st3) := expectPeek .RIGHT_BRACKET st2
      if ok then some (some (.subscriptAccess indexToken objectExp idx), st3)
      else some (none, st3)

end

/-! ## Statement parsing -/

/-- `Parser.parseTypeAnnotation`: the type name after a `:` (or `->`). -/
def parseTypeAnn (st : PState) : Option TypeAnn × PState :=
  let (ok, st1) := expectPeek .IDENTIFIER st
  if ¬ ok then
    (none, pushError st1 ("Expected type name after :, got " ++ ttName st1.peekToken.type))
  else
    let typeIdentifier : Ident := ⟨st1.currentToken, st1.currentToken.literal⟩
    (some ⟨typeIdentifier.token, typeIdentifier⟩, st1)

/-- `Parser.parseVariableDeclaration`:
`(let|var) name (: Type)? = expression NEWLINE`. -/
def parseVariableDeclaration (fuel : Nat) (st : PState) : Option (Option Stmt × PState) :=
  match fuel with
  | 0 => none
  | fuel + 1 =>
    let declToken := st.currentToken
    let isConstant := st.currentToken.type = .LET
    let (ok, st1) := expectPeek .IDENTIFIER st
    if ¬ ok then some (none, st1)
    else
      let identifier : Ident := ⟨st1.currentToken, st1.currentToken.literal⟩
      let (tok1, tAnn, st2) :=
        if st1.peekToken.type = .COLON then
          match parseTypeAnn (pNextToken st1) with
          | (none, sta) => (false, none, sta)
          | (some ta, sta) => (true, some ta, sta)
        else (true, none, st1)
      if ¬ tok1 then some (none, st2)
      else
        let (ok2, st3) := expectPeek .ASSIGN st2
        if ¬ ok2 then some (none, st3)
        else
          let st4 := pNextToken st3
          match parseExpression fuel 0 st4 with
          | none => none
          | some (none, st5) => some (none, pushError st5
              ("Expected expression for variable initializer (line " ++
                toString st5.currentToken.line ++ ")"))
          | some (some ini, st5) =>
            let (ok3, st6) := expectPeek .NEWLINE st5
            let st7 := if ¬ ok3 ∧ st6.currentToken.type ≠ .EOF then
                pushError st6 ("Expected NEWLINE after variable declaration, got " ++
                  ttName st6.currentToken.type ++ " (line " ++
                  toString st6.currentToken.line ++ ")")
              else st6
            some (some (.variableDeclaration declToken isConstant identifier tAnn (some ini)), st7)

/-- `Parser.parseReturnStatement`: `return expression? NEWLINE`. -/
def parseReturnStatement (fuel : Nat) (st : PState) : Option (Option Stmt × PState) :=
  match fuel with
  | 0 => none
  | fuel + 1 =>
    let returnToken := st.currentToken
    let st1 := pNextToken st
    if st1.currentToken.type ≠ .NEWLINE ∧ st1.currentToken.type ≠ .EOF then
      match parseExpression fuel 0 st1 with
      | none => none
      | some (none, st2) => some (none, pushError st2
          ("Expected expression or newline after return, got " ++
            ttName st2.currentToken.type))
      | some (some rv, st2) =>
        let (ok, st3) := expectPeek .NEWLINE st2
        let st4 := if ¬ ok ∧ st3.currentToken.type ≠ .EOF then
            pushError st3 ("Expected NEWLINE after return statement, got " ++
              ttName st3.currentToken.type ++ " (line " ++
              toString st3.currentToken.line ++ ")")
          else st3
        some (some (.returnStatement returnToken (some rv)), st4)
    else
      let (ok, st3) := expectPeek .NEWLINE st1
      let st4 := if ¬ ok ∧ st3.currentToken.type ≠ .EOF then
          pushError st3 ("Expected NEWLINE after return statement, got " ++
            ttName st3.currentToken.type ++ " (line " ++
            toString st3.currentToken.line ++ ")")
        else st3
      some (some (.returnStatement returnToken none), st4)

/-- `Parser.parseExpressionStatement`: expression `NEWLINE`. -/
def parseExpressionStatement (fuel : Nat) (st : PState) : Option (Option Stmt × PState) :=
  match fuel with
  | 0 => none
  | fuel + 1 =>
    let stmtToken := st.currentToken
    match parseExpression fuel 0 st with
    | none => none
    | some (none, st1) => some (none, pushError st1
        ("Unexpected token " ++ ttName st1.currentToken.type ++
          " when expecting an expression or statement start (line " ++
          toString st1.currentToken.line ++ ")"))
    | some (some e, st1) =>
      let (ok, st2) := expectPeek .NEWLINE st1
      let st3 := if ¬ ok ∧ st2.currentToken.type ≠ .EOF then
          pushError st2 ("Expected NEWLINE after expression statement, got " ++
            ttName st2.currentToken.type ++ " (line " ++
            toString st2.currentToken.line ++ ")")
        else st2
      some (some (.expressionStatement stmtToken e), st3)

/-- `Parser.parseSingleParameter`: `name (: Type)? (= default)?`. -/
def parseSingleParameter (fuel : Nat) (st : PState) : Option (Option Param × PState) :=
  match fuel with
  | 0 => none
  | fuel + 1 =>
    if st.currentToken.type ≠ .IDENTIFIER then
      some (none, pushError st ("Expected parameter name (identifier), got " ++
        ttName st.currentToken.type))
    else
      let paramToken := st.currentToken
      let identifier : Ident := ⟨paramToken, paramToken.literal⟩
      let (tok1, tAnn, st1) :=
        if st.peekToken.type = .COLON then
          match parseTypeAnn (pNextToken st) with
          | (none, sta) => (false, none, sta)
          | (some ta, sta) => (true, some ta, sta)
        else (true, none, st)
      if ¬ tok1 then some (none, st1)
      else
        if st1.peekToken.type = .ASSIGN then
          let st2 := pNextToken st1
          let st3 := pNextToken st2
          match parseExpression fuel 0 st3 with
          | none => none
          | some (none, st4) => some (none, pushError st4
              ("Expected default value expression after = for parameter " ++
                String.mk identifier.name))
          | some (some dv, st4) => some (some ⟨paramToken, identifier, tAnn, some dv⟩, st4)
        else some (some ⟨paramToken, identifier, tAnn, none⟩, st1)

/-- The comma loop of `Parser.parseParameters` (trailing comma supported). -/
def parseParamsLoop (fuel : Nat) (endToken : TokenType) (params : List Param)
    (st : PState) : Option (Option (List Param) × PState) :=
  match fuel with
  | 0 => none
  | fuel + 1 =>
    if st.peekToken.type = .COMMA then
      let st1 := pNextToken st
      if st1.peekToken.type = endToken then some (some params, pNextToken st1)
      else
        let st2 := pNextToken st1
        match parseSingleParameter fuel st2 with
        | none => none
        | some (none, st3) => some (none, st3)
        | some (some p, st3) => parseParamsLoop fuel endToken (params ++ [p]) st3
    else
      if st.currentToken.type = endToken then some (some params, st)
      else
        let (ok, st1) := expectPeek endToken st
        if ok then some (some params, st1)
        else
          some (none, pushError st1 ("Expected , or " ++ ttName endToken ++
            " after parameter, got " ++ ttName st1.peekToken.type))

/-- `Parser.parseParameters`: parameter list after `(`, consuming `)`. -/
def parseParameters (fuel : Nat) (endToken startToken : TokenType) (st : PState) :
    Option (Option (List Param) × PState) :=
  match fuel with
  | 0 => none
  | fuel + 1 =>
    if st.peekToken.type = endToken then some (some [], pNextToken st)
    else
      let st1 := pNextToken st
      match parseSingleParameter fuel st1 with
      | none => none
      | some (none, st2) => some (none, st2)
      | some (some p, st2) => parseParamsLoop fuel endToken [p] st2

/-- `Parser.parseMemberVariableDeclaration`:
`(let|var) name : Type (= expression)? NEWLINE` inside a class body. -/
def parseMemberVariableDeclaration (fuel : Nat) (st : PState) :
    Option (Option Stmt × PState) :=
  match fuel with
  | 0 => none
  | fuel + 1 =>
    let declToken := st.currentToken
    let isConstant := st.currentToken.type = .LET
    let (ok, st1) := expectPeek .IDENTIFIER st
    if ¬ ok then some (none, st1)
    else
      let identifier : Ident := ⟨st1.currentToken, st1.currentToken.literal⟩
      let (ok2, st2) := expectPeek .COLON st1
      if ¬ ok2 then
        some (none, pushError st2 ("Expected : for type annotation after member variable name " ++
          String.mk identifier.name ++ ", got " ++ ttName st2.peekToken.type))
      else
        match parseTypeAnn st2 with
        | (none, st3) => some (none, st3)
        | (some ta, st3) =>
          let finish := fun (ini : Option Expr) (stx : PState) =>
            let (ok3, sty) := expectPeek .NEWLINE stx
            let stz := if ¬ ok3 ∧ sty.currentToken.type ≠ .EOF ∧
                sty.currentToken.type ≠ .DEDENT then
                pushError sty ("Expected NEWLINE after member variable declaration, got " ++
                  ttName sty.currentToken.type ++ " (line " ++
                  toString sty.currentToken.line ++ ")")
              else sty
            some (some (Stmt.variableDeclaration declToken isConstant identifier (some ta) ini), stz)
          if st3.peekToken.type = .ASSIGN then
            let st4 := pNextToken st3
            let st5 := pNextToken st4
            match parseExpression fuel 0 st5 with
            | none => none
            | some (none, st6) => some (none, pushError st6
                ("Expected expression for member variable initializer (line " ++
                  toString st6.currentToken.line ++ ")"))
            | some (some ini, st6) => finish (some ini) st6
          else finish none st3

/-- The blank-line-skipping loop inside block and class-body parsing:
advance while the current token is a `NEWLINE`. -/
def skipNewlinesF (fuel : Nat) (st : PState) : Option PState :=
  match fuel with
  | 0 => none
  | fuel + 1 =>
    if st.currentToken.type = .NEWLINE then skipNewlinesF fuel (pNextToken st)
    else some st

/-- The loop before the first statement of `Parser.parseProgram`: skip
leading newlines and dedents. -/
def skipNewlineDedentF (fuel : Nat) (st : PState) : Option PState :=
  match fuel with
  | 0 => none
  | fuel + 1 =>
    if st.currentToken.type = .NEWLINE ∨ st.currentToken.type = .DEDENT then
      skipNewlineDedentF fuel (pNextToken st)
    else some st

/-- The trailing-skip loop inside the `Parser.parseProgram` statement loop:
skip newlines/dedents after a statement, except a dedent immediately
followed by `EOF`, and stop upon reaching `EOF`. -/
def skipTrailingF (fuel : Nat) (st : PState) : Option PState :=
  match fuel with
  | 0 => none
  | fuel + 1 =>
    if st.currentToken.type = .NEWLINE ∨ st.currentToken.type = .DEDENT then
      if st.currentToken.type = .DEDENT ∧ st.peekToken.type = .EOF then some st
      else
        let st' := pNextToken st
        if st'.currentToken.type = .EOF then some st'
        else skipTrailingF fuel st'
    else some st

mutual

/-- `Parser.parseStatement`: dispatch on the current token type.  A
`NEWLINE`/`DEDENT` advances and yields no statement. -/
def parseStatementF (fuel : Nat) (st : PState) : Option (Option Stmt × PState) :=
  match fuel with
  | 0 => none
  | fuel + 1 =>
    match st.currentToken.type with
    | .LET => parseVariableDeclaration fuel st
    | .VAR => parseVariableDeclaration fuel st
    | .RETURN => parseReturnStatement fuel st
    | .FUNC =>
      if st.peekToken.type = .INIT then
        if ¬ st.isInClass then
          some (none, pushError st ("Parser Error: init found outside of class definition (line " ++
            toString st.currentToken.line ++ ")"))
        else parseFunctionDeclaration fuel true true st
      else parseFunctionDeclaration fuel st.isInClass false st
    | .CLASS => parseClassDeclaration fuel st
    | .IF => parseIfStatement fuel st
    | .WHILE => parseWhileStatement fuel st
    | .FOR => parseForStatement fuel st
    | .NEWLINE => some (none, pNextToken st)
    | .DEDENT => some (none, pNextToken st)
    | _ => parseExpressionStatement fuel st

/-- `Parser.parseBlockStatement`: `NEWLINE INDENT statements` up to the
terminating `DEDENT` (left unconsumed for the caller). -/
def parseBlockStatementF (fuel : Nat) (st : PState) : Option (Option Stmt × PState) :=
  match fuel with
  | 0 => none
  | fuel + 1 =>
    let blockToken := st.currentToken
    let (ok, st1) := expectPeek .NEWLINE st
    if ¬ ok then
      some (none, pushError st1 ("Expected NEWLINE after : or -> to start block, got " ++
        ttName st1.peekToken.type))
    else
      let (ok2, st2) := expectPeek .INDENT st1
      if ¬ ok2 then
        some (none, pushError st2 ("Expected INDENT to start block body, got " ++
          ttName st2.peekToken.type))
      else
        match blockLoopF fuel [] st2 with
        | none => none
        | some (stmts, st3) =>
          if st3.currentToken.type ≠ .DEDENT ∧ st3.currentToken.type ≠ .EOF then
            some (none, pushError st3 ("Expected DEDENT to end block, got " ++
              ttName st3.currentToken.type ++ " (line " ++
              toString st3.currentToken.line ++ ")"))
          else
            some (some (.blockStatement blockToken stmts), st3)

/-- The statement loop of `Parser.parseBlockStatement`: until a
`DEDENT`/`EOF`, skip blank lines and parse one statement; a failed
statement attempt does not advance the cursor (the recovery advance in the
source is commented out). -/
def blockLoopF (fuel : Nat) (acc : List Stmt) (st : PState) :
    Option (List Stmt × PState) :=
  match fuel with
  | 0 => none
  | fuel + 1 =>
    if st.currentToken.type = .DEDENT ∨ st.currentToken.type = .EOF then some (acc, st)
    else
      match skipNewlinesF fuel st with
      | none => none
      | some st1 =>
        if st1.currentToken.type = .DEDENT ∨ st1.currentToken.type = .EOF then some (acc, st1)
        else
          match parseStatementF fuel st1 with
          | none => none
          | some (some s, st2) => blockLoopF fuel (acc ++ [s]) st2
          | some (none, st2) => blockLoopF fuel acc st2

/-- `Parser.parseFunctionDeclaration`:
`func name(params) (-> Type)? : Block`, or `func init(params) : Block`. -/
def parseFunctionDeclaration (fuel : Nat) (isMethod isInitializer : Bool) (st : PState) :
    Option (Option Stmt × PState) :=
  match fuel with
  | 0 => none
  | fuel + 1 =>
    let funcToken := st.currentToken
    let (ok, st1) := if isInitializer then expectPeek .INIT st else expectPeek .IDENTIFIER st
    if ¬ ok then some (none, st1)
    else
      let name : Ident := ⟨st1.currentToken, st1.currentToken.literal⟩
      let (ok2, st2) := expectPeek .LEFT_PAREN st1
      if ¬ ok2 then some (none, st2)
      else
        match parseParameters fuel .RIGHT_PAREN .LEFT_PAREN st2 with
        | none => none
        | some (none, st3) => some (none, st3)
        | some (some params, st3) =>
          if st3.peekToken.type = .ARROW ∧ isInitializer then
            some (none, pushError st3
              ("Initializer init cannot have an explicit return type annotation -> (line " ++
                toString st3.peekToken.line ++ ")"))
          else
            let (rtok, returnType, st4) :=
              if st3.peekToken.type = .ARROW then
                match parseTypeAnn (pNextToken st3) with
                | (none, sta) => (false, none, sta)
                | (some ta, sta) => (true, some ta, sta)
              else (true, none, st3)
            if ¬ rtok then some (none, st4)
            else
              let (ok3, st5) := expectPeek .COLON st4
              if ¬ ok3 then some (none, st5)
              else
                let currentInClass := st5.isInClass
                let st6 := if isMethod then { st5 with isInClass := true } else st5
                match parseBlockStatementF fuel st6 with
                | none => none
                | some (bodyOpt, st7) =>
                  let st8 := { st7 with isInClass := currentInClass }
                  match bodyOpt with
                  | none => some (none, pushError st8
                      ("Expected function body block after : (line " ++
                        toString st8.currentToken.line ++ ")"))
                  | some body => some (some (.functionDeclaration funcToken name params
                      returnType body isMethod isInitializer), st8)

/-- `Parser.parseClassDeclaration`: `class Name : ClassBody`. -/
def parseClassDeclaration (fuel : Nat) (st : PState) : Option (Option Stmt × PState) :=
  match fuel with
  | 0 => none
  | fuel + 1 =>
    let classToken := st.currentToken
    let (ok, st1) := expectPeek .IDENTIFIER st
    if ¬ ok then some (none, st1)
    else
      let name : Ident := ⟨st1.currentToken, st1.currentToken.literal⟩
      let (ok2, st2) := expectPeek .COLON st1
      if ¬ ok2 then some (none, st2)
      else
        let currentInClass := st2.isInClass
        let st3 := { st2 with isInClass := true }
        match parseClassBodyF fuel st3 with
        | none => none
        | some (membersOpt, st4) =>
          let st5 := { st4 with isInClass := currentInClass }
          match membersOpt with
          | none => some (none, pushError st5
              ("Expected class body block after : (line " ++
                toString st5.currentToken.line ++ ")"))
          | some members => some (some (.classDeclaration classToken name members), st5)

/-- `Parser.parseClassBody`: `NEWLINE INDENT members` up to `DEDENT`. -/
def parseClassBodyF (fuel : Nat) (st : PState) :
    Option (Option (List Stmt) × PState) :=
  match fuel with
  | 0 => none
  | fuel + 1 =>
    let (ok, st1) := expectPeek .NEWLINE st
    if ¬ ok then
      some (none, pushError st1 ("Expected NEWLINE after class : to start body, got " ++
        ttName st1.peekToken.type))
    else
      let (ok2, st2) := expectPeek .INDENT st1
      if ¬ ok2 then
        some (none, pushError st2 ("Expected INDENT to start class body, got " ++
          ttName st2.peekToken.type))
      else
        match classBodyLoopF fuel [] st2 with
        | none => none
        | some (members, st3) =>
          if st3.currentToken.type ≠ .DEDENT ∧ st3.currentToken.type ≠ .EOF then
            some (none, pushError st3 ("Expected DEDENT to end class body, got " ++
              ttName st3.currentToken.type ++ " (line " ++
              toString st3.currentToken.line ++ ")"))
          else some (some members, st3)

/-- The member loop of `Parser.parseClassBody`: `let`/`var` members,
methods and initializers; any other token records a diagnostic and is
skipped. -/
def classBodyLoopF (fuel : Nat) (acc : List Stmt) (st : PState) :
    Option (List Stmt × PState) :=
  match fuel with
  | 0 => none
  | fuel + 1 =>
    if st.currentToken.type = .DEDENT ∨ st.currentToken.type = .EOF then some (acc, st)
    else
      match skipNewlinesF fuel st with
      | none => none
      | some st1 =>
        if st1.currentToken.type = .DEDENT ∨ st1.currentToken.type = .EOF then some (acc, st1)
        else
          match st1.currentToken.type with
          | .LET =>
            match parseMemberVariableDeclaration fuel st1 with
            | none => none
            | some (some m, st2) => classBodyLoopF fuel (acc ++ [m]) st2
            | some (none, st2) => classBodyLoopF fuel acc st2
          | .VAR =>
            match parseMemberVariableDeclaration fuel st1 with
            | none => none
            | some (some m, st2) => classBodyLoopF fuel (acc ++ [m]) st2
            | some (none, st2) => classBodyLoopF fuel acc st2
          | .FUNC =>
            let isInit := st1.peekToken.type = .INIT
            match parseFunctionDeclaration fuel true isInit st1 with
            | none => none
            | some (some m, st2) => classBodyLoopF fuel (acc ++ [m]) st2
            | some (none, st2) => classBodyLoopF fuel acc st2
          | t =>
            let st2 := pNextToken (pushError st1
              ("Unexpected token in class body: " ++ ttName t ++
                ". Expected let, var, or func. (line " ++
                toString st1.currentToken.line ++ ")"))
            classBodyLoopF fuel acc st2

/-- `Parser.parseIfStatement`: condition and block, `elif` chain, optional
`else` block.  Each block's terminating `DEDENT` is consumed before looking
for the next branch. -/
def parseIfStatement (fuel : Nat) (st : PState) : Option (Option Stmt × PState) :=
  match fuel with
  | 0 => none
  | fuel + 1 =>
    let ifToken := st.currentToken
    let st1 := pNextToken st
    match parseExpression fuel 0 st1 with
    | none => none
    | some (none, st2) => some (none, pushError st2 "Expected condition expression after if")
    | some (some condition, st2) =>
      let (ok, st3) := expectPeek .COLON st2
      if ¬ ok then some (none, st3)
      else
        match parseBlockStatementF fuel st3 with
        | none => none
        | some (none, st4) => some (none, pushError st4 "Expected block for if consequence")
        | some (some consequence, st4) =>
          let st5 := pNextToken st4
          match elifLoopF fuel [] st5 with
          | none => none
          | some (none, st6) => some (none, st6)
          | some (some alts, st6) =>
            if st6.currentToken.type = .ELSE then
              let st7 := pNextToken st6
              let (ok2, st8) := expectPeek .COLON st7
              if ¬ ok2 then some (none, st8)
              else
                match parseBlockStatementF fuel st8 with
                | none => none
                | some (none, st9) => some (none, pushError st9 "Expected block for else alternative")
                | some (some elseBlock, st9) =>
                  some (some (.ifStatement ifToken condition consequence alts (some elseBlock)), st9)
            else
              some (some (.ifStatement ifToken condition consequence alts none), st6)

/-- The `elif` loop of `Parser.parseIfStatement`. -/
def elifLoopF (fuel : Nat) (acc : List (Expr × Stmt)) (st : PState) :
    Option (Option (List (Expr × Stmt)) × PState) :=
  match fuel with
  | 0 => none
  | fuel + 1 =>
    if st.currentToken.type = .ELIF then
      let st1 := pNextToken st
      match parseExpression fuel 0 st1 with
      | none => none
      | some (none, st2) => some (none, pushError st2 "Expected condition expression after elif")
      | some (some cond, st2) =>
        let (ok, st3) := expectPeek .COLON st2
        if ¬ ok then some (none, st3)
        else
          match parseBlockStatementF fuel st3 with
          | none => none
          | some (none, st4) => some (none, pushError st4 "Expected block for elif consequence")
          | some (some cons, st4) =>
            elifLoopF fuel (acc ++ [(cond, cons)]) (pNextToken st4)
    else some (some acc, st)

/-- `Parser.parseWhileStatement`: `while condition : Block`. -/
def parseWhileStatement (fuel : Nat) (st : PState) : Option (Option Stmt × PState) :=
  match fuel with
  | 0 => none
  | fuel + 1 =>
    let whileToken := st.currentToken
    let st1 := pNextToken st
    match parseExpression fuel 0 st1 with
    | none => none
    | some (none, st2) => some (none, pushError st2 "Expected condition expression after while")
    | some (some condition, st2) =>
      let (ok, st3) := expectPeek .COLON st2
      if ¬ ok then some (none, st3)
      else
        match parseBlockStatementF fuel st3 with
        | none => none
        | some (none, st4) => some (none, pushError st4 "Expected block for while loop body")
        | some (some body, st4) =>
          some (some (.whileStatement whileToken condition body), st4)

/-- `Parser.parseForStatement`: `for name in iterable : Block`. -/
def parseForStatement (fuel : Nat) (st : PState) : Option (Option Stmt × PState) :=
  match fuel with
  | 0 => none
  | fuel + 1 =>
    let forToken := st.currentToken
    let (ok, st1) := expectPeek .IDENTIFIER st
    if ¬ ok then
      some (none, pushError st1 ("Expected identifier after for, got " ++
        ttName st1.peekToken.type))
    else
      let loopVar : Ident := ⟨st1.currentToken, st1.currentToken.literal⟩
      let (ok2, st2) := expectPeek .IN st1
      if ¬ ok2 then
        some (none, pushError st2 ("Expected in keyword after loop variable in for loop, got " ++
          ttName st2.peekToken.type))
      else
        let st3 := pNextToken st2
        match parseExpression fuel 0 st3 with
        | none => none
        | some (none, st4) => some (none, pushError st4
            "Expected iterable expression after in in for loop")
        | some (some iterable, st4) =>
          let (ok3, st5) := expectPeek .COLON st4
          if ¬ ok3 then some (none, st5)
          else
            match parseBlockStatementF fuel st5 with
            | none => none
            | some (none, st6) => some (none, pushError st6 "Expected block for for loop body")
            | some (some body, st6) =>
              some (some (.forStatement forToken loopVar iterable body), st6)

end

/-- The statement loop of `Parser.parseProgram`: until `EOF`, parse a
statement (advancing one token when the attempt yields nothing), then skip
trailing newlines/dedents. -/
def parseProgramLoopF (fuel : Nat) (acc : List Stmt) (st : PState) :
    Option (List Stmt × PState) :=
  match fuel with
  | 0 => none
  | fuel + 1 =>
    if st.currentToken.type = .EOF then some (acc, st)
    else
      match parseStatementF fuel st with
      | none => none
      | some (stmtOpt, st1) =>
        let (acc', st2) :=
          match stmtOpt with
          | some s => (acc ++ [s], st1)
          | none => (acc, pNextToken st1)
        match skipTrailingF fuel st2 with
        | none => none
        | some st3 => parseProgramLoopF fuel acc' st3

/-- `Parser.parseProgram`. -/
def parseProgramF (fuel : Nat) (st : PState) : Option (Program × PState) :=
  match fuel with
  | 0 => none
  | fuel + 1 =>
    let progToken := st.currentToken
    match skipNewlineDedentF fuel st with
    | none => none
    | some st1 =>
      match parseProgramLoopF fuel [] st1 with
      | none => none
      | some (stmts, st2) => some (⟨progToken, stmts⟩, st2)

/-- Run the full pipeline `new Parser(new Lexer(s)).parseProgram()` with a
fuel budget large enough for any terminating run on the inputs considered
here. -/
def runProgram (s : String) : Option (Program × PState) :=
  parseProgramF 200 (mkParser (mkLexer s.toList))

/-- Position the parser's two-token window on the first two tokens of the
lexer's stream (the sliding window the parse functions operate on) and run
`Parser.parseExpression(LOWEST)` on it, as the expression-level entry
point. -/
def mkExprParser (lex : LexerState) : PState :=
  let (t1, lex1) := lexNext lex
  let (t2, lex2) := lexNext lex1
  { lex := lex2, currentToken := t1, peekToken := t2, errors := [], isInClass := false }

/-- Parse the source string as a single expression. -/
def runExpr (s : String) : Option (Option Expr × PState) :=
  parseExpression 100 0 (mkExprParser (mkLexer s.toList))

/-- The AST produced by parsing the source string as an expression
(`none`: the parse failed or ran out of fuel). -/
def runExprAst (s : String) : Option Expr :=
  match runExpr s with
  | some (e, _) => e
  | none => none

/-- The diagnostics produced by parsing the source string as an
expression. -/
def runExprErrors (s : String) : List String :=
  match runExpr s with
  | some (_, st) => st.errors
  | none => []

/-! ## Claims -/

/-- Count the tokens of a given type in a token list. -/
def countType (ts : List Token) (tt : TokenType) : Nat :=
  (ts.filter fun t => decide (t.type = tt)).length

/-- C1: the claim states that `Lexer.tokenize()` always returns a non-empty
token sequence ending in an `eof` token, in particular for `""` and
`"let x = 10"`.  The code refutes this: the loop guard `!this.isAtEnd()`
is false exactly when the current character is the end-of-input sentinel,
which is the only situation in which `nextToken` can produce `EOF`, so
`tokenize` can never collect an `EOF` token: the empty string yields an
empty sequence and `"let x = 10"` ends with the `INTEGER` token. -/
theorem tokenize_never_reaches_eof :
    harmonyTokenize "" = [] ∧
    (harmonyTokenize "let x = 10").map Token.type =
      [.LET, .IDENTIFIER, .ASSIGN, .INTEGER] := by
  exact ⟨rfl, rfl⟩

/-- C2: the claim states that for inputs with consistent 4-space
indentation the token stream has equally many `indent` and `dedent`
tokens.  The code refutes this: the end-of-input dedent flush inside
`nextToken` is unreachable from `tokenize` (same dead guard as C1), so the
consistently indented program `"if x:\n    y\n"` produces one `indent` and
no `dedent`. -/
theorem tokenize_indent_dedent_mismatch :
    countType (harmonyTokenize "if x:\n    y\n") .INDENT = 1 ∧
    countType (harmonyTokenize "if x:\n    y\n") .DEDENT = 0 := by
  exact ⟨rfl, rfl⟩

/-- C4: the claim states that `currentToken` is never a `comment` token
after the parser is constructed.  The constructor refutes it: it loads the
first two lexer tokens, then advances once, leaving `currentToken` equal to
the second raw lexer token without any comment filtering (only `peekToken`
is filtered), so on `"x # c\ny"` the freshly constructed parser holds the
comment token in `currentToken`. -/
theorem constructor_exposes_comment_token :
    (mkParser (mkLexer "x # c\ny".toList)).currentToken.type = .COMMENT ∧
    (mkParser (mkLexer "x # c\ny".toList)).currentToken.literal = "# c".toList := by
  exact ⟨rfl, rfl⟩

/-- C5: the claim states that parsing `"Counter(start: 10)"` yields an
`InstanceCreation` node.  The code refutes this: the shared
expression-list helper has no labeled-argument support, so after parsing
the identifier `start` it requires `,` or `)` and fails on the `:`,
returning `null` with two diagnostics.  The unlabeled forms behave as
claimed: `"add(1,2)"` is a `FunctionCall` and `"Counter(10)"` an
`InstanceCreation` selected purely by the uppercase initial. -/
theorem labeled_arguments_reject :
    runExprAst "Counter(start: 10)" = none ∧
    runExprErrors "Counter(start: 10)" =
      ["Expected next token to be RIGHT_PAREN, got COLON instead (line 1, col 14)",
       "Expected , or RIGHT_PAREN in expression list, got COLON"] ∧
    (match runExprAst "add(1,2)" with
     | some (.functionCall _ (.identifier f) args) => f.name = "add".toList ∧ args.length = 2
     | _ => False) ∧
    (match runExprAst "Counter(10)" with
     | some (.instanceCreation _ c args) => c.name = "Counter".toList ∧ args.length = 1
     | _ => False) := by
  refine ⟨rfl, rfl, ?_, ?_⟩ <;> exact ⟨rfl, rfl⟩

/-- C7: parsing `"1 + 2 * 3"` produces a `BinaryExpression` rooted at `+`
whose right child is the `BinaryExpression` `2 * 3`: multiplication binds
tighter than addition in the Pratt loop's precedence comparison. -/
theorem precedence_one_plus_two_times_three :
    runExprAst "1 + 2 * 3" =
      some (.binaryExpression ⟨.PLUS, ['+'], 1, 3⟩
        (.integerLiteral ⟨.INTEGER, ['1'], 1, 1⟩ 1)
        ['+']
        (.binaryExpression ⟨.MULTIPLY, ['*'], 1, 7⟩
          (.integerLiteral ⟨.INTEGER, ['2'], 1, 5⟩ 2)
          ['*']
          (.integerLiteral ⟨.INTEGER, ['3'], 1, 9⟩ 3))) := by
  exact rfl

/-- C9: `"[1, 2, 3,]"` and `"[1, 2, 3]"` parse to identical `ListLiteral`
ASTs with exactly three elements and no diagnostics: the trailing comma
before the closing bracket adds no element and is not an error. -/
theorem trailing_comma_same_list :
    runExprAst "[1, 2, 3,]" = runExprAst "[1, 2, 3]" ∧
    (match runExprAst "[1, 2, 3,]" with
     | some (.listLiteral _ elems) => elems.length = 3
     | _ => False) ∧
    runExprErrors "[1, 2, 3,]" = [] ∧ runExprErrors "[1, 2, 3]" = [] := by
  have h1 : runExprAst "[1, 2, 3,]" =
      some (.listLiteral ⟨.LEFT_BRACKET, ['['], 1, 1⟩
        [.integerLiteral ⟨.INTEGER, ['1'], 1, 2⟩ 1,
         .integerLiteral ⟨.INTEGER, ['2'], 1, 5⟩ 2,
         .integerLiteral ⟨.INTEGER, ['3'], 1, 8⟩ 3]) := rfl
  have h2 : runExprAst "[1, 2, 3]" =
      some (.listLiteral ⟨.LEFT_BRACKET, ['['], 1, 1⟩
        [.integerLiteral ⟨.INTEGER, ['1'], 1, 2⟩ 1,
         .integerLiteral ⟨.INTEGER, ['2'], 1, 5⟩ 2,
         .integerLiteral ⟨.INTEGER, ['3'], 1, 8⟩ 3]) := rfl
  refine ⟨h1.trans h2.symm, ?_, rfl, rfl⟩
  rw [h1]
  exact rfl

/-- C8: the claim states that parsing `"self.x"` at top level yields an AST
containing a `SelfExpression` plus a self-outside-class diagnostic.  The
code refutes this: the constructor discards the first lexer token, so the
`self` token is lost before parsing starts; on the newline-terminated
variant the program reduces to the single statement `x` with two
unrelated diagnostics about the dangling dot (and on `"self.x"` exactly,
whose final statement lacks a newline, `parseProgram` does not even
terminate).  When `self` is not the first token the claimed behavior does
occur, as the `"\nself.x\n"` contrast shows: a `SelfExpression` inside the
AST and the self-outside-class diagnostic, with no exception or abort. -/
theorem self_first_token_dropped :
    (match runProgram "self.x\n" with
     | some (prog, st) =>
       prog.statements = [.expressionStatement ⟨.IDENTIFIER, ['x'], 1, 6⟩
         (.identifier ⟨⟨.IDENTIFIER, ['x'], 1, 6⟩, ['x']⟩)] ∧
       st.errors = ["No prefix parse function found for DOT (line 1)",
         "Unexpected token DOT when expecting an expression or statement start (line 1)"]
     | none => False) ∧
    (match runProgram "\nself.x\n" with
     | some (prog, st) =>
       prog.statements = [.expressionStatement ⟨.SELF, "self".toList, 2, 1⟩
         (.memberAccess ⟨.DOT, ['.'], 2, 5⟩
           (.selfExpression ⟨.SELF, "self".toList, 2, 1⟩)
           ⟨⟨.IDENTIFIER, ['x'], 2, 6⟩, ['x']⟩)] ∧
       st.errors = [selfOutsideMsg 2]
     | none => False) := by
  exact ⟨⟨rfl, rfl⟩, ⟨rfl, rfl⟩⟩

/-- On a strictly decreasing stack, every member of the tail is below the
head. -/
theorem chainGt_mem_lt {x : Nat} {l : List Nat}
    (h : List.Chain (· > ·) x l) : ∀ y ∈ l, y < x := by
  induction l generalizing x with
  | nil => intro y hy; cases hy
  | cons b t ih =>
    rw [List.chain_cons] at h
    intro y hy
    cases hy with
    | head => exact h.1
    | tail _ hy => exact lt_trans (ih h.2 y hy) h.1

/-- C6: for a line whose indentation is below the stack top, the unwinding
loop pops `k ≥ 1` entries, emits exactly one `dedent` token per pop, stops
with the new top at or below the new indent, and appends one
`illegal`-`"Invalid indentation"` token exactly when the new indent matches
no remaining stack level (on a strictly decreasing stack with base `0`,
the indent is a member of the remaining stack iff it equals the new top).
Lexical errors are data in the token stream; the embedding, like the
source, is a total function that never throws. -/
theorem processDedents_spec (indent line : Nat) :
    ∀ (top : Nat) (rest : List Nat),
      List.Chain (· > ·) top rest →
      (top :: rest).getLast? = some 0 →
      indent < top →
      ∃ k, 1 ≤ k ∧
        (processDedents indent line (top :: rest)).1 = (top :: rest).drop k ∧
        (processDedents indent line (top :: rest)).1 ≠ [] ∧
        (processDedents indent line (top :: rest)).1.headD 0 ≤ indent ∧
        (processDedents indent line (top :: rest)).2 =
          List.replicate k ⟨.DEDENT, [], line, 0⟩ ++
            (if indent ∈ (processDedents indent line (top :: rest)).1 then []
             else [⟨.ILLEGAL, "Invalid indentation".toList, line, 0⟩]) := by
  intro top rest
  induction rest generalizing top with
  | nil =>
    intro _ hbase hlt
    simp only [List.getLast?_singleton, Option.some.injEq] at hbase
    omega
  | cons next rest2 ih =>
    intro hchain hbase hlt
    rw [List.chain_cons] at hchain
    rcases Nat.lt_or_ge next indent with hA | hB
    · -- next < indent: one pop, then the mismatch break with an illegal token
      have hres : processDedents indent line (top :: next :: rest2) =
          (next :: rest2,
            [⟨.DEDENT, [], line, 0⟩, ⟨.ILLEGAL, "Invalid indentation".toList, line, 0⟩]) := by
        unfold processDedents
        rw [if_pos hlt]
        dsimp only
        rw [if_pos hA]
      have hnotmem : indent ∉ next :: rest2 := by
        intro hmem
        cases hmem with
        | head => omega
        | tail _ hmem => exact absurd (chainGt_mem_lt hchain.2 indent hmem) (by omega)
      refine ⟨1, le_refl 1, ?_, ?_, ?_, ?_⟩
      · rw [hres]; rfl
      · rw [hres]; simp
      · rw [hres]; simpa using Nat.le_of_lt hA
      · rw [hres]; simp [hnotmem]
    · have hnA : ¬ next < indent := by omega
      rcases Nat.lt_or_ge indent next with hBlt | hBge
      · -- indent < next: pop one entry and keep unwinding
        have hbase2 : (next :: rest2).getLast? = some 0 := by
          rwa [List.getLast?_cons_cons] at hbase
        obtain ⟨k, hk1, hs, hne, hh, hts⟩ := ih next hchain.2 hbase2 hBlt
        rcases hrec : processDedents indent line (next :: rest2) with ⟨s2, ts2⟩
        rw [hrec] at hs hne hh hts
        have hres : processDedents indent line (top :: next :: rest2) =
            (s2, ⟨.DEDENT, [], line, 0⟩ :: ts2) := by
          unfold processDedents
          rw [if_pos hlt]
          dsimp only
          rw [if_neg hnA, hrec]
        refine ⟨k + 1, by omega, ?_, ?_, ?_, ?_⟩
        · rw [hres, List.drop_succ_cons]
          simpa using hs
        · rw [hres]; simpa using hne
        · rw [hres]; simpa using hh
        · rw [hres]
          simp only at hts
          simp [hts, List.replicate_succ]
      · -- indent = next: pop one entry, then the loop guard fails (exact match)
        have heq : indent = next := by omega
        have hstop : ¬ indent < next := by omega
        have hrec : processDedents indent line (next :: rest2) = (next :: rest2, []) := by
          unfold processDedents
          rw [if_neg hstop]
        have hres : processDedents indent line (top :: next :: rest2) =
            (next :: rest2, [⟨.DEDENT, [], line, 0⟩]) := by
          unfold processDedents
          rw [if_pos hlt]
          dsimp only
          rw [if_neg hnA, hrec]
        have hmem : indent ∈ next :: rest2 := by
          rw [heq]; exact List.mem_cons_self next rest2
        refine ⟨1, le_refl 1, ?_, ?_, ?_, ?_⟩
        · rw [hres]; rfl
        · rw [hres]; simp
        · rw [hres]; simp [heq]
        · rw [hres]; simp [hmem]

/-- Witness for C6 at the concrete unwinding of indent 2 against the stack
`[8, 4, 0]` (top first): two pops, two dedents, and the mismatch illegal
token. -/
theorem processDedents_spec_witness :
    ∃ k, 1 ≤ k ∧
      (processDedents 2 7 [8, 4, 0]).1 = ([8, 4, 0] : List Nat).drop k ∧
      (processDedents 2 7 [8, 4, 0]).1 ≠ [] ∧
      (processDedents 2 7 [8, 4, 0]).1.headD 0 ≤ 2 ∧
      (processDedents 2 7 [8, 4, 0]).2 =
        List.replicate k ⟨.DEDENT, [], 7, 0⟩ ++
          (if 2 ∈ (processDedents 2 7 [8, 4, 0]).1 then []
           else [⟨.ILLEGAL, "Invalid indentation".toList, 7, 0⟩]) :=
  processDedents_spec 2 7 8 [4, 0]
    (List.Chain.cons (by omega) (List.Chain.cons (by omega) List.Chain.nil))
    (by decide) (by decide)

/-! ### C3: non-termination of `parseProgram` on a malformed block -/

def c3Src : String := "\nif x:\n    y\n"

def c3Init : PState := mkParser (mkLexer c3Src.toList)

def c3Lex : List Char := c3Src.toList

def c3L0 : PState :=
  { lex := { input := c3Lex, position := 5, readPosition := 6, ch := some ':',
             line := 2, column := 5, indentStack := [0], pendingTokens := [] },
    currentToken := ⟨.IF, ['i', 'f'], 2, 1⟩,
    peekToken := ⟨.IDENTIFIER, ['x'], 2, 4⟩,
    errors := [], isInClass := false }

def c3L1 : PState :=
  { lex := { input := c3Lex, position := 6, readPosition := 7, ch := some '\n',
             line := 2, column := 6, indentStack := [0], pendingTokens := [] },
    currentToken := ⟨.IDENTIFIER, ['x'], 2, 4⟩,
    peekToken := ⟨.COLON, [':'], 2, 5⟩,
    errors := [], isInClass := false }

def c3L2 : PState :=
  { lex := { input := c3Lex, position := 7, readPosition := 8, ch := some ' ',
             line := 3, column := 1, indentStack := [0], pendingTokens := [] },
    currentToken := ⟨.COLON, [':'], 2, 5⟩,
    peekToken := ⟨.NEWLINE, ['\\', 'n'], 2, 6⟩,
    errors := [], isInClass := false }

def c3L3 : PState :=
  { lex := { input := c3Lex, position := 11, readPosition := 12, ch := some 'y',
             line := 3, column := 5, indentStack := [4, 0], pendingTokens := [] },
    currentToken := ⟨.NEWLINE, ['\\', 'n'], 2, 6⟩,
    peekToken := ⟨.INDENT, [], 3, 0⟩,
    errors := [], isInClass := false }

/-- The state at which the block-statement loop gets stuck: the cursor sits
on the block's `INDENT` token, for which no statement parse can succeed,
and the loop never advances.  Only the diagnostics list changes from one
iteration to the next. -/
def c3Stuck (E : List String) : PState :=
  { lex := { input := c3Lex, position := 12, readPosition := 13, ch := some '\n',
             line := 3, column := 6, indentStack := [4, 0], pendingTokens := [] },
    currentToken := ⟨.INDENT, [], 3, 0⟩,
    peekToken := ⟨.IDENTIFIER, ['y'], 3, 5⟩,
    errors := E, isInClass := false }

def c3Msg1 : String := "No prefix parse function found for " ++ ttName TokenType.INDENT ++
  " (line " ++ toString (3 : Nat) ++ ")"

def c3Msg2 : String := "Unexpected token " ++ ttName TokenType.INDENT ++
  " when expecting an expression or statement start (line " ++ toString (3 : Nat) ++ ")"

/-- One statement attempt at the stuck state yields no statement, records
two diagnostics, and leaves the cursor exactly where it was. -/
theorem c3_stmtStep (g : Nat) (E : List String) :
    parseStatementF (g + 3) (c3Stuck E) =
      some (none, c3Stuck ((E ++ [c3Msg1]) ++ [c3Msg2])) := rfl

/-- The block-statement loop never terminates from the stuck state, no
matter how much fuel it is given: the source's recovery advance is
commented out, so no forward progress is made. -/
theorem c3_blockStuck : ∀ f E, blockLoopF f [] (c3Stuck E) = none := by
  intro f
  induction f with
  | zero => intro E; rfl
  | succ f ih =>
    intro E
    match f, ih with
    | 0, _ => rfl
    | 1, _ => rfl
    | 2, _ => rfl
    | g + 3, ih => exact ih ((E ++ [c3Msg1]) ++ [c3Msg2])

theorem parseBlockStatementF_prop (fuel : Nat) (st st1 st2 : PState)
    (e1 : expectPeek .NEWLINE st = (true, st1))
    (e2 : expectPeek .INDENT st1 = (true, st2))
    (h3 : blockLoopF fuel [] st2 = none) :
    parseBlockStatementF (fuel + 1) st = none := by
  simp [parseBlockStatementF, e1, e2, h3]

theorem parseIfStatement_prop (fuel : Nat) (st : PState) (e : Expr) (st2 st3 : PState)
    (h1 : parseExpression fuel 0 (pNextToken st) = some (some e, st2))
    (h2 : expectPeek .COLON st2 = (true, st3))
    (h3 : parseBlockStatementF fuel st3 = none) :
    parseIfStatement (fuel + 1) st = none := by
  simp [parseIfStatement, h1, h2, h3]

theorem parseStatementF_if_prop (fuel : Nat) (st : PState)
    (h1 : st.currentToken.type = .IF)
    (h2 : parseIfStatement fuel st = none) :
    parseStatementF (fuel + 1) st = none := by
  simp [parseStatementF, h1, h2]

theorem parseProgramLoopF_prop (fuel : Nat) (acc : List Stmt) (st : PState)
    (h1 : st.currentToken.type ≠ .EOF)
    (h2 : parseStatementF fuel st = none) :
    parseProgramLoopF (fuel + 1) acc st = none := by
  simp [parseProgramLoopF, h1, h2]

theorem parseProgramF_prop (fuel : Nat) (st st1 : PState)
    (h1 : skipNewlineDedentF fuel st = some st1)
    (h2 : parseProgramLoopF fuel [] st1 = none) :
    parseProgramF (fuel + 1) st = none := by
  simp [parseProgramF, h1, h2]

set_option maxHeartbeats 2000000 in
/-- C3: the claim states that `parseProgram` terminates on every input
because both statement loops force one token of progress after a failed
statement attempt.  The code refutes this for the block loop, whose
recovery advance is commented out: on `"\nif x:\n    y\n"` the block body
starts with the `INDENT` token still under the cursor, every statement
attempt at it fails without advancing, and the loop repeats forever.  In
the fuel embedding: for every fuel, the full pipeline returns the
fuel-exhaustion marker, via `c3_blockStuck` at the reachable stuck state. -/
theorem parseProgram_diverges_on_block : ∀ f, parseProgramF f c3Init = none := by
  intro f
  have hinit : c3Init = c3L0 := rfl
  rw [hinit]
  match f with
  | 0 | 1 | 2 | 3 | 4 | 5 => rfl
  | g + 6 =>
    apply parseProgramF_prop (g + 5) c3L0 c3L0 rfl
    apply parseProgramLoopF_prop (g + 4) [] c3L0 (by decide)
    apply parseStatementF_if_prop (g + 3) c3L0 rfl
    apply parseIfStatement_prop (g + 2) c3L0
      (.identifier ⟨⟨.IDENTIFIER, ['x'], 2, 4⟩, ['x']⟩) c3L1 c3L2 rfl rfl
    apply parseBlockStatementF_prop (g + 1) c3L2 c3L3 (c3Stuck []) rfl rfl
    exact c3_blockStuck (g + 1) []

/-! ### C10: parenthesized grouping -/

/-- C10 counterexample: the ASTs of `"(1)"` and `"1"` are not literally
equal, because every node carries its source token and the parenthesis
shifts the inner expression's column by one. -/
theorem grouped_ast_not_identical : runExprAst "(1)" ≠ runExprAst "1" := by
  have h1 : runExprAst "(1)" = some (.integerLiteral ⟨.INTEGER, ['1'], 1, 2⟩ 1) := rfl
  have h2 : runExprAst "1" = some (.integerLiteral ⟨.INTEGER, ['1'], 1, 1⟩ 1) := rfl
  rw [h1, h2]
  intro h
  simp only [Option.some.injEq, Expr.integerLiteral.injEq, Token.mk.injEq] at h
  omega

/-- C10 amended: grouping creates no AST node of its own.  Whenever the
expression parse after the `(` succeeds with node `e` and the next token is
`)`, the grouped-expression parse returns exactly `e` (consuming the `)`),
so `"(" ++ e ++ ")"` parses to the very node of `e`, the parenthesis
affecting only precedence; only the token positions stored inside the node
differ from parsing `e` alone. -/
theorem parseGroupedExpression_no_node (fuel : Nat) (st : PState) (e : Expr) (st2 : PState)
    (h1 : parseExpression fuel 0 (pNextToken st) = some (some e, st2))
    (h2 : st2.peekToken.type = .RIGHT_PAREN) :
    parseGroupedExpression (fuel + 1) st = some (some e, pNextToken st2) := by
  simp [parseGroupedExpression, expectPeek, h1, h2]

def c10St2 : PState :=
  { lex := { input := ['(', '1', ')'], position := 3, readPosition := 4, ch := none,
             line := 1, column := 4, indentStack := [0], pendingTokens := [] },
    currentToken := ⟨.INTEGER, ['1'], 1, 2⟩,
    peekToken := ⟨.RIGHT_PAREN, [')'], 1, 3⟩,
    errors := [], isInClass := false }

/-- Witness for C10 at the concrete input `"(1)"`. -/
theorem parseGroupedExpression_no_node_witness :
    parseGroupedExpression 21 (mkExprParser (mkLexer "(1)".toList)) =
      some (some (.integerLiteral ⟨.INTEGER, ['1'], 1, 2⟩ 1), pNextToken c10St2) :=
  parseGroupedExpression_no_node 20 (mkExprParser (mkLexer "(1)".toList))
    (.integerLiteral ⟨.INTEGER, ['1'], 1, 2⟩ 1) c10St2 rfl rfl
